import Mathlib

/-!
Verification of the taskconf configuration-resolution engine.

This file gives a shallow embedding of the Python sources
`taskconf/config/ConfigurationBlock.py`, `taskconf/config/Preset.py`,
`taskconf/config/Configuration.py` and
`taskconf/config/ConfigurationManager.py`, and proves or refutes the
frozen claims about them.

Modelling conventions:
* JSON trees are `JValue`; Python `dict`s are association lists with
  insertion order (`JObj`), as Python 3.7+ dicts are ordered.
* `/`-delimited key paths are lists of path segments (`List String`);
  the concatenation `a + "/" + b` of two paths becomes list append.
* Python exceptions are error values: `NotFoundError` is
  `Err.notFound`; an uncaught `TypeError` is `Err.typeErr`, an uncaught
  `ValueError` (e.g. `int()` on a non-numeric string) is `Err.valueErr`,
  and an `AttributeError` (attribute missing on an object) is
  `Err.attrErr`.  Functions that can only raise return `Option`/`Except`.
* `json.loads` (Python standard library, external to the repository) is
  modelled on the fragment the template-substitution code exercises:
  integer literals, `true`, `false` and `null`; every other string is
  treated as invalid JSON (`none`).
-/

set_option autoImplicit false

namespace Taskconf

/-- A JSON value: the raw documents and config trees of taskconf. -/
inductive JValue where
  | null
  | bool (b : Bool)
  | num (n : Int)
  | str (s : String)
  | arr (xs : List JValue)
  | obj (fields : List (String × JValue))

/-- A JSON object body: keys with values, in insertion order. -/
abbrev JObj := List (String × JValue)

mutual

/-- Decidable equality of JSON values (written by hand because the
nested inductive has no derived instance). -/
def decEqJ : (a b : JValue) → Decidable (a = b)
  | JValue.null, JValue.null => isTrue rfl
  | JValue.bool b1, JValue.bool b2 =>
    match decEq b1 b2 with
    | isTrue h => isTrue (by rw [h])
    | isFalse h => isFalse (by simp [h])
  | JValue.num n1, JValue.num n2 =>
    match decEq n1 n2 with
    | isTrue h => isTrue (by rw [h])
    | isFalse h => isFalse (by simp [h])
  | JValue.str s1, JValue.str s2 =>
    match decEq s1 s2 with
    | isTrue h => isTrue (by rw [h])
    | isFalse h => isFalse (by simp [h])
  | JValue.arr xs, JValue.arr ys =>
    match decEqJList xs ys with
    | isTrue h => isTrue (by rw [h])
    | isFalse h => isFalse (by simp [h])
  | JValue.obj f1, JValue.obj f2 =>
    match decEqJFields f1 f2 with
    | isTrue h => isTrue (by rw [h])
    | isFalse h => isFalse (by simp [h])
  | JValue.null, JValue.bool _ => isFalse (by intro h; cases h)
  | JValue.null, JValue.num _ => isFalse (by intro h; cases h)
  | JValue.null, JValue.str _ => isFalse (by intro h; cases h)
  | JValue.null, JValue.arr _ => isFalse (by intro h; cases h)
  | JValue.null, JValue.obj _ => isFalse (by intro h; cases h)
  | JValue.bool _, JValue.null => isFalse (by intro h; cases h)
  | JValue.bool _, JValue.num _ => isFalse (by intro h; cases h)
  | JValue.bool _, JValue.str _ => isFalse (by intro h; cases h)
  | JValue.bool _, JValue.arr _ => isFalse (by intro h; cases h)
  | JValue.bool _, JValue.obj _ => isFalse (by intro h; cases h)
  | JValue.num _, JValue.null => isFalse (by intro h; cases h)
  | JValue.num _, JValue.bool _ => isFalse (by intro h; cases h)
  | JValue.num _, JValue.str _ => isFalse (by intro h; cases h)
  | JValue.num _, JValue.arr _ => isFalse (by intro h; cases h)
  | JValue.num _, JValue.obj _ => isFalse (by intro h; cases h)
  | JValue.str _, JValue.null => isFalse (by intro h; cases h)
  | JValue.str _, JValue.bool _ => isFalse (by intro h; cases h)
  | JValue.str _, JValue.num _ => isFalse (by intro h; cases h)
  | JValue.str _, JValue.arr _ => isFalse (by intro h; cases h)
  | JValue.str _, JValue.obj _ => isFalse (by intro h; cases h)
  | JValue.arr _, JValue.null => isFalse (by intro h; cases h)
  | JValue.arr _, JValue.bool _ => isFalse (by intro h; cases h)
  | JValue.arr _, JValue.num _ => isFalse (by intro h; cases h)
  | JValue.arr _, JValue.str _ => isFalse (by intro h; cases h)
  | JValue.arr _, JValue.obj _ => isFalse (by intro h; cases h)
  | JValue.obj _, JValue.null => isFalse (by intro h; cases h)
  | JValue.obj _, JValue.bool _ => isFalse (by intro h; cases h)
  | JValue.obj _, JValue.num _ => isFalse (by intro h; cases h)
  | JValue.obj _, JValue.str _ => isFalse (by intro h; cases h)
  | JValue.obj _, JValue.arr _ => isFalse (by intro h; cases h)

def decEqJList : (a b : List JValue) → Decidable (a = b)
  | [], [] => isTrue rfl
  | [], _ :: _ => isFalse (by intro h; cases h)
  | _ :: _, [] => isFalse (by intro h; cases h)
  | x :: xs, y :: ys =>
    match decEqJ x y, decEqJList xs ys with
    | isTrue h1, isTrue h2 => isTrue (by rw [h1, h2])
    | isFalse h1, _ => isFalse (by simp [h1])
    | _, isFalse h2 => isFalse (by simp [h2])

def decEqJFields : (a b : List (String × JValue)) → Decidable (a = b)
  | [], [] => isTrue rfl
  | [], _ :: _ => isFalse (by intro h; cases h)
  | _ :: _, [] => isFalse (by intro h; cases h)
  | (k1, v1) :: xs, (k2, v2) :: ys =>
    match decEq k1 k2, decEqJ v1 v2, decEqJFields xs ys with
    | isTrue h0, isTrue h1, isTrue h2 => isTrue (by rw [h0, h1, h2])
    | isFalse h0, _, _ => isFalse (by simp [h0])
    | _, isFalse h1, _ => isFalse (by simp [h1])
    | _, _, isFalse h2 => isFalse (by simp [h2])

end

instance : DecidableEq JValue := decEqJ

/-- Python `k in d` / `d[k]` on an ordered dict: the value stored at a
key, if present. -/
def lookupKey (fields : JObj) (k : String) : Option JValue :=
  match fields with
  | [] => none
  | (k1, v) :: rest => if k1 = k then some v else lookupKey rest k

/-- Python `d.get(k, dflt)`. -/
def lookupD (fields : JObj) (k : String) (dflt : JValue) : JValue :=
  (lookupKey fields k).getD dflt

/-- Python `d[k] = v` on an ordered dict: replace in place if the key
exists, append otherwise. -/
def setKey (fields : JObj) (k : String) (v : JValue) : JObj :=
  match fields with
  | [] => [(k, v)]
  | (k1, v1) :: rest => if k1 = k then (k1, v) :: rest else (k1, v1) :: setKey rest k v

mutual

/-- Well-formedness of a JSON tree: every object has distinct keys
(true of every tree parsed from JSON, since Python dicts cannot hold
duplicate keys). -/
def wfTree : JValue → Bool
  | JValue.obj fields => wfFields fields && decide ((fields.map Prod.fst).Nodup)
  | _ => true

def wfFields : JObj → Bool
  | [] => true
  | (_, v) :: rest => wfTree v && wfFields rest

end

/-- One decimal digit, Python `int` style. -/
def digitVal (c : Char) : Option Nat :=
  if '0' ≤ c ∧ c ≤ '9' then some (c.toNat - '0'.toNat) else none

def parseDigitsGo : List Char → Nat → Option Nat
  | [], acc => some acc
  | c :: rest, acc =>
    match digitVal c with
    | none => none
    | some d => parseDigitsGo rest (acc * 10 + d)

/-- Parse a nonempty all-digit character list to a natural number. -/
def parseDigits : List Char → Option Nat
  | [] => none
  | cs => parseDigitsGo cs 0

/-- Python `int(s)` for a string key, modelled on digit strings (with
optional leading minus); any other string raises `ValueError`
(`none`). -/
def strToInt (s : String) : Option Int :=
  match s.data with
  | '-' :: rest => (parseDigits rest).map (fun n => -(n : Int))
  | l => (parseDigits l).map (fun n => (n : Int))

/-- Python `int(s)` restricted to non-negative results, used for
timestep keys. -/
def strToNat (s : String) : Option Nat := parseDigits s.data

/-- Model of the external `json.loads` on the fragment exercised by
template substitution: `true`, `false`, `null` and integer literals;
anything else raises `ValueError` (`none`). -/
def jsonLoads (s : String) : Option JValue :=
  if s = "true" then some (JValue.bool true)
  else if s = "false" then some (JValue.bool false)
  else if s = "null" then some JValue.null
  else (strToInt s).map JValue.num

/-- The template token `$T<i>$` of `ConfigurationBlock._deep_update`. -/
def templateTok (i : Nat) : String := "$T" ++ toString i ++ "$"

/-- The inner `for i in range(len(args))` loop of
`ConfigurationBlock._deep_update`, acting on the current value of
`d[k]`.  Once a wholesale substitution has replaced the string by a
non-string JSON value, the next iteration evaluates
`d[k].replace(...)` on that non-string and raises `AttributeError`
(`none`). -/
def substLoop (cur : JValue) (args : List String) (i : Nat) : Option JValue :=
  match args with
  | [] => some cur
  | a :: rest =>
    match cur with
    | JValue.str s =>
      let next : JValue :=
        match jsonLoads a with
        | some jv => if s = templateTok i then jv else JValue.str (s.replace (templateTok i) a)
        | none => JValue.str (s.replace (templateTok i) a)
      substLoop next rest (i + 1)
    | _ => none

/-- The leaf-assignment step of `ConfigurationBlock._deep_update`:
`d[k] = v` followed by the template loop when `type(d[k]) == str`. -/
def substTemplates (v : JValue) (args : List String) : Option JValue :=
  match v with
  | JValue.str s => substLoop (JValue.str s) args 0
  | _ => some v

/-- `ConfigurationBlock._deep_update(d, u, args)`.  For each `(k, v)` of
`u` in order: if `v` is a mapping, `d[k] = deep_update(d.get(k, {}), v,
args)` — this raises (`none`) when `d` itself is not a dict, or deeper,
when the old value is not a dict and `v` is nonempty; otherwise
`d[k] = v` with template substitution on string leaves. -/
def deepUpdate : JValue → JObj → List String → Option JValue
  | d, [], _ => some d
  | d, (k, JValue.obj uo) :: rest, args =>
    match d with
    | JValue.obj df =>
      match deepUpdate (lookupD df k (JValue.obj [])) uo args with
      | none => none
      | some sub => deepUpdate (JValue.obj (setKey df k sub)) rest args
    | _ => none
  | d, (k, v) :: rest, args =>
    match d with
    | JValue.obj df =>
      match substTemplates v args with
      | none => none
      | some w => deepUpdate (JValue.obj (setKey df k w)) rest args
    | _ => none
termination_by _ u _ => sizeOf u

/-- `Preset._deep_update(d, u)` (textually identical in
`Configuration._deep_update`): the same recursion without template
arguments. -/
def deepUpdateP : JValue → JObj → Option JValue
  | d, [] => some d
  | d, (k, JValue.obj uo) :: rest =>
    match d with
    | JValue.obj df =>
      match deepUpdateP (lookupD df k (JValue.obj [])) uo with
      | none => none
      | some sub => deepUpdateP (JValue.obj (setKey df k sub)) rest
    | _ => none
  | d, (k, v) :: rest =>
    match d with
    | JValue.obj df => deepUpdateP (JValue.obj (setKey df k v)) rest
    | _ => none
termination_by _ u => sizeOf u

/-- The base-layer fold of `ConfigurationBlock._merge_config`:
`for base_config in self.base_configs: self._deep_update(self.merged_config,
base_config[0], base_config[1:])`. -/
def mergeLayers (acc : JObj) : List (JObj × List String) → Option JObj
  | [] => some acc
  | (tree, args) :: rest =>
    match deepUpdate (JValue.obj acc) tree args with
    | some (JValue.obj acc2) => mergeLayers acc2 rest
    | _ => none

/-- `ConfigurationBlock._merge_config`: start from `{}`, fold the base
layers in order, then fold the block's own config last. -/
def cbMergeConfig (config : JObj) (layers : List (JObj × List String)) : Option JObj :=
  match mergeLayers [] layers with
  | none => none
  | some m =>
    match deepUpdate (JValue.obj m) config [] with
    | some (JValue.obj r) => some r
    | _ => none

/-- Insert into a descending-sorted list, keeping it descending; used
to model Python's `list.sort(reverse=True)`. -/
def insertDesc (x : Nat) : List Nat → List Nat
  | [] => [x]
  | y :: ys => if y ≤ x then x :: y :: ys else y :: insertDesc x ys

/-- Sort a list of naturals in descending order. -/
def sortDesc (l : List Nat) : List Nat := l.foldr insertDesc []

/-- Parse every timestep key with `int(...)`; a single non-numeric key
raises `ValueError` for the whole comprehension. -/
def parseKeys : List String → Option (List Nat)
  | [] => some []
  | s :: rest =>
    match strToNat s, parseKeys rest with
    | some n, some l => some (n :: l)
    | _, _ => none

/-- Errors raised by the lookup machinery: `NotFoundError`,
`TypeError`, `ValueError` and `AttributeError`. -/
inductive Err where
  | notFound
  | typeErr
  | valueErr
  | attrErr
  deriving DecidableEq

/-- `ConfigurationBlock.all_timesteps`:
`set(int(num) for num in self.merged_config.keys())`. -/
def cbAllTimesteps (m : JObj) : Except Err (List Nat) :=
  match parseKeys (m.map Prod.fst) with
  | none => Except.error Err.valueErr
  | some l => Except.ok l.dedup

/-- `ConfigurationBlock.valid_timesteps`: the declared timesteps that
are `≤ current_timestep`, sorted descending. -/
def cbValidTimesteps (m : JObj) (currentTimestep : Nat) : Except Err (List Nat) :=
  match cbAllTimesteps m with
  | Except.error e => Except.error e
  | Except.ok ts => Except.ok (sortDesc (ts.filter (fun t => t ≤ currentTimestep)))

/-- `ConfigurationBlock._get_value_from_block`: walk a `/`-split path;
a non-terminal segment must name a nested dict, the final segment's
value is returned; `none` is `NotFoundError`. -/
def cbGetFromBlock : List String → JObj → Option JValue
  | [], _ => none
  | [k], block => lookupKey block k
  | k :: rest, block =>
    match lookupKey block k with
    | some (JValue.obj b) => cbGetFromBlock rest b
    | _ => none

/-- `ConfigurationBlock._get_value_at_timestep`: prepend the timestep
segment and look up. -/
def cbGetValueAtTimestep (m : JObj) (name : List String) (t : Nat) : Option JValue :=
  cbGetFromBlock (toString t :: name) m

/-- The scan loop of `ConfigurationBlock._get_value`: try each valid
timestep most-recent-first, swallowing `NotFoundError`. -/
def cbScan (m : JObj) (name : List String) : List Nat → Option JValue
  | [] => none
  | t :: rest =>
    match cbGetValueAtTimestep m name t with
    | some v => some v
    | none => cbScan m name rest

/-- `ConfigurationBlock._get_value`. -/
def cbGetValue (m : JObj) (name : List String) (currentTimestep : Nat) : Except Err JValue :=
  match cbValidTimesteps m currentTimestep with
  | Except.error e => Except.error e
  | Except.ok ts =>
    match cbScan m name ts with
    | some v => Except.ok v
    | none => Except.error Err.notFound

/-- The mutable logging state of a `ConfigurationBlock` (or `Preset`):
`printed_settings` plus whether a logger is installed. -/
structure LogSt where
  printed : List (List String × JValue)
  hasLogger : Bool

/-- One emitted log line: first observation or change of a setting. -/
inductive LogEvent where
  | usingVal (name : List String) (v : JValue)
  | switching (name : List String) (oldV newV : JValue)

/-- Lookup in `printed_settings`. -/
def lookupPrinted (printed : List (List String × JValue)) (name : List String) : Option JValue :=
  match printed with
  | [] => none
  | (n, v) :: rest => if n = name then some v else lookupPrinted rest name

/-- Assignment `printed_settings[name] = value`. -/
def setPrinted (printed : List (List String × JValue)) (name : List String) (v : JValue) :
    List (List String × JValue) :=
  match printed with
  | [] => [(name, v)]
  | (n, v1) :: rest => if n = name then (n, v) :: rest else (n, v1) :: setPrinted rest name v

/-- The logging block at the end of `_get_value_with_fallback` (both in
`ConfigurationBlock` and `Preset`): when a logger is installed and the
value is new or changed, emit `Using`/`Switching` and remember the
value; it only updates logging state. -/
def logStep (st : LogSt) (name : List String) (v : JValue) : LogSt × List LogEvent :=
  if st.hasLogger then
    match lookupPrinted st.printed name with
    | none => (⟨setPrinted st.printed name v, true⟩, [LogEvent.usingVal name v])
    | some old =>
      if old = v then (st, [])
      else (⟨setPrinted st.printed name v, true⟩, [LogEvent.switching name old v])
  else (st, [])

/-- `ConfigurationBlock._get_value_with_fallback`: resolve the primary
name, fall back to the fallback name only on `NotFoundError`, then log
`Using`/`Switching` when a logger is installed and remember the value.
Returns the value (or the propagated error) together with the updated
logging state and the emitted log events. -/
def cbGVWF (m : JObj) (name : List String) (fallback : Option (List String))
    (currentTimestep : Nat) (st : LogSt) : Except Err JValue × LogSt × List LogEvent :=
  let res :=
    match cbGetValue m name currentTimestep with
    | Except.ok v => Except.ok v
    | Except.error Err.notFound =>
      match fallback with
      | some f => cbGetValue m f currentTimestep
      | none => Except.error Err.notFound
    | Except.error e => Except.error e
  match res with
  | Except.error e => (Except.error e, st, [])
  | Except.ok v => (Except.ok v, logStep st name v)

/-- Python `int(value)` on a resolved JSON value: ints pass through,
bools coerce to 0/1, numeric strings parse; everything else raises
(`TypeError`, surfaced by `get_int` as such). -/
def toIntC : JValue → Option Int
  | JValue.num n => some n
  | JValue.bool b => some (if b then 1 else 0)
  | JValue.str s => strToInt s
  | _ => none

/-- `ConfigurationBlock.get_int`: resolve with fallback, then coerce. -/
def cbGetInt (m : JObj) (name : List String) (fallback : Option (List String))
    (currentTimestep : Nat) (st : LogSt) : Except Err Int × LogSt × List LogEvent :=
  match cbGVWF m name fallback currentTimestep st with
  | (Except.ok v, st2, ev) =>
    (match toIntC v with
     | some n => Except.ok n
     | none => Except.error Err.typeErr, st2, ev)
  | (Except.error e, st2, ev) => (Except.error e, st2, ev)

/-! ## Preset (`taskconf/config/Preset.py`)

A `Preset` owns `ConfigurationBlock(data["config"])` (no base layers),
a `dynamic` flag read from the raw document, and an optional base
preset; lookups walk the base chain at query time. -/

/-- The structural state of a `Preset`: its raw `config` tree, its
declared `dynamic` flag, and its base chain. -/
inductive PresetT where
  | leaf (config : JObj) (dynamic : Bool)
  | derived (config : JObj) (dynamic : Bool) (basePreset : PresetT)

def pConfig : PresetT → JObj
  | PresetT.leaf c _ => c
  | PresetT.derived c _ _ => c

def pDynamic : PresetT → Bool
  | PresetT.leaf _ dyn => dyn
  | PresetT.derived _ dyn _ => dyn

/-- `Preset.treat_dynamic` (with no simulated base):
`self.dynamic or (self.base_preset is not None and
self.base_preset.treat_dynamic())`. -/
def pTreatDynamic : PresetT → Bool
  | PresetT.leaf _ dyn => dyn
  | PresetT.derived _ dyn b => dyn || pTreatDynamic b

/-- The preset together with its transitive base presets, most derived
first. -/
def pChainList : PresetT → List PresetT
  | PresetT.leaf c dyn => [PresetT.leaf c dyn]
  | PresetT.derived c dyn b => PresetT.derived c dyn b :: pChainList b

/-- `Preset.all_timesteps`.  When `treat_dynamic()` holds it evaluates
`self.config.configBlocks.keys()` — but the current
`ConfigurationBlock` has no `configBlocks` attribute, so this raises
`AttributeError`.  Otherwise the set is `{0}`, united with the base's
timesteps. -/
def pAllTimesteps : PresetT → Except Err (List Nat)
  | PresetT.leaf c dyn =>
    if pTreatDynamic (PresetT.leaf c dyn) then Except.error Err.attrErr
    else Except.ok [0]
  | PresetT.derived c dyn b =>
    if pTreatDynamic (PresetT.derived c dyn b) then Except.error Err.attrErr
    else
      match pAllTimesteps b with
      | Except.error e => Except.error e
      | Except.ok bs => Except.ok (List.union [0] bs)

/-- `Preset.valid_timesteps`. -/
def pValidTimesteps (p : PresetT) (currentTimestep : Nat) : Except Err (List Nat) :=
  match pAllTimesteps p with
  | Except.error e => Except.error e
  | Except.ok ts => Except.ok (sortDesc (ts.filter (fun t => t ≤ currentTimestep)))

/-- The call `getattr(self.config, 'get_' + value_type)(timestep_name)`
inside `Preset._get_value_at_timestep`: the preset's own
`ConfigurationBlock` (built from its raw config with no base layers,
logger `None`) resolves the path with `current_timestep = 0` and then
coerces with the requested type's conversion (`coe`; `none` is the
getter's `TypeError`). -/
def blockTypedGet (config : JObj) (name : List String) (coe : JValue → Option JValue) :
    Except Err JValue :=
  match deepUpdate (JValue.obj []) config [] with
  | some (JValue.obj merged) =>
    (match (cbGVWF merged name none 0 ⟨[], false⟩).1 with
     | Except.ok v =>
       match coe v with
       | some w => Except.ok w
       | none => Except.error Err.typeErr
     | Except.error e => Except.error e)
  | _ => Except.error Err.typeErr

/-- `Preset._get_value_at_timestep(name, value_type, timestep)`:
reject `timestep > 0` on non-dynamic chains, prepend the timestep
segment when dynamic, query the own block, and fall through to the
base preset only on `NotFoundError`. -/
def pGetValueAtTimestep (coe : JValue → Option JValue) :
    PresetT → List String → Nat → Except Err JValue
  | PresetT.leaf c dyn, name, t =>
    if t > 0 ∧ pTreatDynamic (PresetT.leaf c dyn) = false then Except.error Err.notFound
    else
      let tname := if pTreatDynamic (PresetT.leaf c dyn) then toString t :: name else name
      blockTypedGet c tname coe
  | PresetT.derived c dyn b, name, t =>
    if t > 0 ∧ pTreatDynamic (PresetT.derived c dyn b) = false then Except.error Err.notFound
    else
      let tname := if pTreatDynamic (PresetT.derived c dyn b) then toString t :: name else name
      match blockTypedGet c tname coe with
      | Except.ok v => Except.ok v
      | Except.error Err.notFound => pGetValueAtTimestep coe b name t
      | Except.error e => Except.error e

/-- The scan loop of `Preset._get_value`: only `NotFoundError` is
swallowed between timesteps. -/
def pScan (coe : JValue → Option JValue) (p : PresetT) (name : List String) :
    List Nat → Except Err JValue
  | [] => Except.error Err.notFound
  | t :: rest =>
    match pGetValueAtTimestep coe p name t with
    | Except.ok v => Except.ok v
    | Except.error Err.notFound => pScan coe p name rest
    | Except.error e => Except.error e

/-- `Preset._get_value(name, value_type)` at a given iteration cursor. -/
def pGetValue (coe : JValue → Option JValue) (p : PresetT) (name : List String)
    (cursor : Nat) : Except Err JValue :=
  match pValidTimesteps p cursor with
  | Except.error e => Except.error e
  | Except.ok ts => pScan coe p name ts

/-- A `Preset` as seen by callers: the structural chain plus the
mutable view state (`prefix`, `iteration_cursor`, `printed_settings`,
`logger`). -/
structure PresetView where
  core : PresetT
  prefixPath : List String
  cursor : Nat
  printed : List (List String × JValue)
  hasLogger : Bool

/-- `Preset._get_value_with_fallback(name, fallback, value_type)`:
prefix the primary and fallback names, resolve with base-chain
fallback on `NotFoundError` only, then log and remember the value.
Returns the value (or error), the updated `printed_settings` and the
emitted log events. -/
def pGVWF (v : PresetView) (coe : JValue → Option JValue) (name : List String)
    (fallback : Option (List String)) :
    Except Err JValue × LogSt × List LogEvent :=
  let fullName := v.prefixPath ++ name
  let res :=
    match pGetValue coe v.core fullName v.cursor with
    | Except.ok w => Except.ok w
    | Except.error Err.notFound =>
      (match fallback with
       | some f => pGetValue coe v.core (v.prefixPath ++ f) v.cursor
       | none => Except.error Err.notFound)
    | Except.error e => Except.error e
  match res with
  | Except.error e => (Except.error e, ⟨v.printed, v.hasLogger⟩, [])
  | Except.ok w => (Except.ok w, logStep ⟨v.printed, v.hasLogger⟩ fullName w)

/-- `Preset.get_with_prefix(prefix)`: `clone(deep=False)` shares the
config chain and copies the cursor, but starts with a fresh
`printed_settings` and no logger; then the prefix is extended. -/
def pGetWithPrefix (v : PresetView) (q : List String) : PresetView :=
  { core := v.core
    prefixPath := v.prefixPath ++ q
    cursor := v.cursor
    printed := []
    hasLogger := false }

/-- The raw-document state a `Preset` mutates through
`set_config_at_timestep`: `data["config"]` and `data["dynamic"]`
(`Preset.set_data` copies the latter into `self.dynamic` verbatim). -/
structure PData where
  dataConfig : JObj
  dataDynamic : Bool

/-- `Preset.set_config_at_timestep(new_config, timestep)`.  Already
dynamic: deep-merge into the existing subtree at the timestep key if
one exists, then assign at that key.  Not dynamic: wrap the flat
config under `"0"`, set `dynamic = True`, then assign (not merge) the
new config at the timestep key.  `set_data` then rebuilds the
`ConfigurationBlock` from the updated document. -/
def setConfigAtTimestep (p : PData) (newConfig : JObj) (t : Nat) : Option PData :=
  if p.dataDynamic then
    match lookupKey p.dataConfig (toString t) with
    | some existing =>
      match deepUpdateP existing newConfig with
      | none => none
      | some merged => some ⟨setKey p.dataConfig (toString t) merged, true⟩
    | none => some ⟨setKey p.dataConfig (toString t) (JValue.obj newConfig), true⟩
  else
    some ⟨setKey [("0", JValue.obj p.dataConfig)] (toString t) (JValue.obj newConfig), true⟩

/-- `Preset.compose_config(simulated_base=None, force_dynamic)`: copy
the own config, wrap it under `"0"` when a non-dynamic preset sits on
a dynamic chain (or is forced), and deep-merge it over the base's
composition. -/
def composeConfig : PresetT → Bool → Option JValue
  | PresetT.leaf c dyn, forceDynamic =>
    let config := JValue.obj c
    let config :=
      if dyn = false ∧ (pTreatDynamic (PresetT.leaf c dyn) || forceDynamic) = true then
        JValue.obj [("0", config)]
      else config
    some config
  | PresetT.derived c dyn b, forceDynamic =>
    let config := JValue.obj c
    let config :=
      if dyn = false ∧ (pTreatDynamic (PresetT.derived c dyn b) || forceDynamic) = true then
        JValue.obj [("0", config)]
      else config
    match composeConfig b (forceDynamic || dyn) with
    | none => none
    | some basec =>
      match config with
      | JValue.obj cf => deepUpdateP basec cf
      | _ => none

/-! ## Configuration (`taskconf/config/Configuration.py`)

A `Configuration` resolves inheritance at construction time: its
`ConfigurationBlock` is built from the own config (wrapped under `"0"`
when not dynamic) over base layers extracted from the base
configurations, and `self.dynamic` is then overridden by whether the
merged tree has more than one top-level key. -/

/-- What `Configuration._build_config` and `treat_dynamic` read from a
base configuration entry: its `get_merged_config(True)` tree, its
`treat_dynamic()` bit and the extra positional template arguments. -/
structure BaseSpec where
  mergedTrue : JObj
  treatDyn : Bool
  args : List String

/-- One iteration's base layers:
`[{iteration: base_config[0].get_merged_config(True)["0"]}] +
base_config[1:]` for each base; the `["0"]` index raises `KeyError`
(`none`) when the base's merged tree has no `"0"` key. -/
def layersOfIter (iter : String) : List BaseSpec → Option (List (JObj × List String))
  | [] => some []
  | spec :: rest =>
    match lookupKey spec.mergedTrue "0" with
    | none => none
    | some sub =>
      match layersOfIter iter rest with
      | none => none
      | some l => some (([(iter, sub)], spec.args) :: l)

/-- The full base-layer extraction loop of
`Configuration._build_config`, over the iteration-keyed dict. -/
def cfgCollectLayers : List (String × List BaseSpec) → Option (List (JObj × List String))
  | [] => some []
  | (iter, specs) :: rest =>
    match layersOfIter iter specs with
    | none => none
    | some a =>
      match cfgCollectLayers rest with
      | none => none
      | some b => some (a ++ b)

/-- `Configuration._build_config(config)`: wrap the config under `"0"`
unless `self.dynamic` currently holds, extract the base layers, and
build the `ConfigurationBlock`'s merged tree. -/
def cfgBuildConfig (selfDynamic : Bool) (baseConfigs : List (String × List BaseSpec))
    (dataConfig : JObj) : Option JObj :=
  let wrapped := if selfDynamic then dataConfig else [("0", JValue.obj dataConfig)]
  match cfgCollectLayers baseConfigs with
  | none => none
  | some layers => cbMergeConfig wrapped layers

/-- The state of a `Configuration` after a (re)build. -/
structure CfgState where
  dataConfig : JObj
  dataDynamic : Bool
  baseConfigs : List (String × List BaseSpec)
  merged : JObj
  dynamic : Bool

/-- `Configuration.set_data(new_data)`: `self.dynamic` is first read
from the document, `_build_config` runs with that value, and then
`self.dynamic = len(self.config.get_merged_config()) > 1` overrides
it. -/
def cfgSetData (baseConfigs : List (String × List BaseSpec)) (dataConfig : JObj)
    (dataDynamic : Bool) : Option CfgState :=
  match cfgBuildConfig dataDynamic baseConfigs dataConfig with
  | none => none
  | some m => some ⟨dataConfig, dataDynamic, baseConfigs, m, decide (m.length > 1)⟩

/-- `Configuration.set_base_configs(base_configs)`: rebuild with the
current (already overridden) `self.dynamic`, then override it again
from the new merged tree. -/
def cfgSetBaseConfigs (st : CfgState) (newBases : List (String × List BaseSpec)) :
    Option CfgState :=
  match cfgBuildConfig st.dynamic newBases st.dataConfig with
  | none => none
  | some m => some ⟨st.dataConfig, st.dataDynamic, newBases, m, decide (m.length > 1)⟩

/-- `Configuration.treat_dynamic`. -/
def cfgTreatDynamic (st : CfgState) : Bool :=
  st.dynamic || st.baseConfigs.any (fun it => it.2.any (fun sp => sp.treatDyn))

/-- `Configuration.get_merged_config(force_dynamic)`: unwrap the `"0"`
subtree unless dynamic is forced or treated; the unwrap raises
`KeyError` (`none`) when the merged tree has no `"0"` key. -/
def cfgGetMergedConfig (st : CfgState) (forceDynamic : Bool) : Option JValue :=
  if forceDynamic = false ∧ cfgTreatDynamic st = false then lookupKey st.merged "0"
  else some (JValue.obj st.merged)

/-- `Configuration.get_int(name)` with an empty prefix: delegate to
the block getter at the configuration's iteration cursor (the block's
own logger is `None` unless `set_logger` was called). -/
def cfgGetInt (st : CfgState) (name : List String) (fallback : Option (List String))
    (cursor : Nat) : Except Err Int :=
  (cbGetInt st.merged name fallback cursor ⟨[], false⟩).1

/-! ## ConfigurationManager (`taskconf/config/ConfigurationManager.py`)

The registry loads raw documents, then resolves each document's base
references recursively, memoizing constructed configurations and
failing when an identifier reappears in its own resolution path. -/

/-- A raw document as the manager sees it after normalization: its
uuid, its base references (each with extra positional arguments; `[]`
when no `base` field is present), its config tree and its declared
dynamic flag. -/
structure Doc where
  uuidS : String
  bases : List (String × List String)
  config : JObj
  dynamic : Bool

/-- Lookup in `self._json_by_uuid`. -/
def findDoc : List Doc → String → Option Doc
  | [], _ => none
  | d :: rest, u => if d.uuidS = u then some d else findDoc rest u

/-- Errors of the load phase: unknown uuid, inheritance cycle, a crash
while constructing a `Configuration`, and exhausted recursion fuel. -/
inductive LoadErr where
  | missing
  | cyclic
  | buildCrash
  | fuelOut
  deriving DecidableEq

/-- `self.configs_by_uuid`. -/
abbrev Memo := List (String × CfgState)

def memoLookup : Memo → String → Option CfgState
  | [], _ => none
  | (k, st) :: rest, u => if k = u then some st else memoLookup rest u

/-- `ConfigurationManager.create_config` =
`Configuration(config_data, base_configs, file)`.  The constructor
stores the base list raw and `set_data` runs `_build_config`, whose
loop `for iteration in self.base_configs: self.base_configs[iteration]`
indexes the *list* with a list element and raises `TypeError` whenever
the base list is nonempty; with no bases it builds normally. -/
def cfgInitFromManager (baseConfigs : List (CfgState × List String)) (dataConfig : JObj)
    (dataDynamic : Bool) : Option CfgState :=
  match baseConfigs with
  | [] => cfgSetData [] dataConfig dataDynamic
  | _ :: _ => none

mutual

/-- `ConfigurationManager._load_config_with_uuid(config_uuid,
children_configs)`, with explicit recursion fuel (the Python recursion
depth is bounded by the number of documents, since the children path
gains a fresh uuid at each level).  The result is the updated
`configs_by_uuid` memo. -/
def loadConfig (docs : List Doc) : Nat → Memo → List String → String → Except LoadErr Memo
  | 0, _, _, _ => Except.error LoadErr.fuelOut
  | Nat.succ fuel, memo, ch, u =>
    match findDoc docs u with
    | none => Except.error LoadErr.missing
    | some d =>
      if u ∈ ch then Except.error LoadErr.cyclic
      else
        match memoLookup memo u with
        | some _ => Except.ok memo
        | none =>
          match loadBases docs fuel memo (ch ++ [u]) d.bases with
          | Except.error e => Except.error e
          | Except.ok (memo2, specs) =>
            match cfgInitFromManager specs d.config d.dynamic with
            | none => Except.error LoadErr.buildCrash
            | some st => Except.ok ((u, st) :: memo2)
termination_by fuel _ _ _ => (fuel, 0)

/-- The base-resolution loop: load each base uuid recursively (with
the extended children path), collecting the resolved configurations
with their extra arguments. -/
def loadBases (docs : List Doc) :
    Nat → Memo → List String → List (String × List String) →
    Except LoadErr (Memo × List (CfgState × List String))
  | _, memo, _, [] => Except.ok (memo, [])
  | fuel, memo, ch, (bid, args) :: rest =>
    match loadConfig docs fuel memo ch bid with
    | Except.error e => Except.error e
    | Except.ok memo2 =>
      match memoLookup memo2 bid with
      | none => Except.error LoadErr.missing
      | some st =>
        match loadBases docs fuel memo2 ch rest with
        | Except.error e => Except.error e
        | Except.ok (memo3, specs) => Except.ok (memo3, (st, args) :: specs)
termination_by fuel _ _ l => (fuel, l.length + 1)

end

/-- The loading loop of `ConfigurationManager.__init__`: resolve every
document in load order; any exception aborts the whole load. -/
def loadAll (docs : List Doc) : Except LoadErr Memo :=
  List.foldlM (fun memo d => loadConfig docs (docs.length + 1) memo [] d.uuidS) [] docs

/-- The base-reference graph of a document set. -/
def edgeD (docs : List Doc) (a b : String) : Prop :=
  ∃ d, findDoc docs a = some d ∧ b ∈ d.bases.map Prod.fst

/-- Reachability along base references (at least one step). -/
def reaches (docs : List Doc) : String → String → Prop :=
  Relation.TransGen (edgeD docs)

/-- An identifier that lies on an inheritance cycle. -/
def selfReach (docs : List Doc) (u : String) : Prop := reaches docs u u

/-- Invariant of the memo: only identifiers off every cycle ever get
constructed. -/
def memoInv (docs : List Doc) (memo : Memo) : Prop :=
  ∀ w st, memoLookup memo w = some st → ¬ selfReach docs w

/-! ## Basic lemmas about the ordered-dict operations -/

theorem lookupKey_setKey_self (fields : JObj) (k : String) (v : JValue) :
    lookupKey (setKey fields k v) k = some v := by
  induction fields with
  | nil => simp [setKey, lookupKey]
  | cons hd tl ih =>
    obtain ⟨k1, v1⟩ := hd
    by_cases h : k1 = k
    · simp [setKey, lookupKey, h]
    · simp [setKey, lookupKey, h, ih]

theorem lookupKey_setKey_ne (fields : JObj) (k k2 : String) (v : JValue) (h : k2 ≠ k) :
    lookupKey (setKey fields k v) k2 = lookupKey fields k2 := by
  induction fields with
  | nil => simp [setKey, lookupKey, Ne.symm h]
  | cons hd tl ih =>
    obtain ⟨k1, v1⟩ := hd
    by_cases h1 : k1 = k
    · subst h1
      simp [setKey, lookupKey, Ne.symm h]
    · by_cases h2 : k1 = k2
      · simp [setKey, lookupKey, h1, h2, h]
      · simp [setKey, lookupKey, h1, h2, ih]

theorem lookupKey_eq_none_iff (fields : JObj) (k : String) :
    lookupKey fields k = none ↔ k ∉ fields.map Prod.fst := by
  induction fields with
  | nil => simp [lookupKey]
  | cons hd tl ih =>
    obtain ⟨k1, v1⟩ := hd
    by_cases h : k1 = k
    · simp [lookupKey, h]
    · simp [lookupKey, h, ih, Ne.symm h]

theorem setKey_of_not_mem (fields : JObj) (k : String) (v : JValue)
    (h : k ∉ fields.map Prod.fst) :
    setKey fields k v = fields ++ [(k, v)] := by
  induction fields with
  | nil => simp [setKey]
  | cons hd tl ih =>
    obtain ⟨k1, v1⟩ := hd
    simp only [List.map_cons, List.mem_cons] at h
    push_neg at h
    simp [setKey, Ne.symm h.1, ih h.2]

theorem lookupKey_append (a b : JObj) (k : String) :
    lookupKey (a ++ b) k =
      match lookupKey a k with
      | some v => some v
      | none => lookupKey b k := by
  induction a with
  | nil => simp [lookupKey]
  | cons hd tl ih =>
    obtain ⟨k1, v1⟩ := hd
    by_cases h : k1 = k
    · simp [lookupKey, h]
    · simp [lookupKey, h, ih]

theorem substTemplates_nil (v : JValue) : substTemplates v [] = some v := by
  cases v <;> rfl

/-! ## The deep-merge rule, key by key -/

/-- The per-key combination the deep-merge performs, read off the
claim: an absent update key keeps the old value; an object update
value recursively merges into the old value (`{}` when absent); a leaf
update value replaces the old value after template substitution. -/
def mergeExpect (df : JObj) (u : JObj) (args : List String) (k : String) : Option JValue :=
  match lookupKey u k with
  | none => lookupKey df k
  | some (JValue.obj uo) => deepUpdate (lookupD df k (JValue.obj [])) uo args
  | some v => substTemplates v args

theorem deepUpdate_obj_shape (u : JObj) :
    ∀ (df : JObj) (args : List String) (r : JValue),
      deepUpdate (JValue.obj df) u args = some r → ∃ rf, r = JValue.obj rf := by
  induction u with
  | nil =>
    intro df args r h
    simp only [deepUpdate] at h
    exact ⟨df, by simpa using h.symm⟩
  | cons hd rest ih =>
    intro df args r h
    obtain ⟨k1, v1⟩ := hd
    cases v1 with
    | obj uo =>
      simp only [deepUpdate] at h
      cases hsub : deepUpdate (lookupD df k1 (JValue.obj [])) uo args with
      | none => rw [hsub] at h; cases h
      | some sub => rw [hsub] at h; exact ih _ _ _ h
    | null =>
      simp only [deepUpdate, substTemplates] at h
      exact ih _ _ _ h
    | bool b =>
      simp only [deepUpdate, substTemplates] at h
      exact ih _ _ _ h
    | num n =>
      simp only [deepUpdate, substTemplates] at h
      exact ih _ _ _ h
    | str s =>
      simp only [deepUpdate, substTemplates] at h
      cases hw : substLoop (JValue.str s) args 0 with
      | none => rw [hw] at h; cases h
      | some w => rw [hw] at h; exact ih _ _ _ h
    | arr xs =>
      simp only [deepUpdate, substTemplates] at h
      exact ih _ _ _ h

theorem deepUpdate_keywise (u : JObj) :
    ∀ (df rf : JObj) (args : List String),
      (u.map Prod.fst).Nodup →
      deepUpdate (JValue.obj df) u args = some (JValue.obj rf) →
      ∀ k, lookupKey rf k = mergeExpect df u args k := by
  induction u with
  | nil =>
    intro df rf args _ h k
    simp only [deepUpdate, Option.some.injEq, JValue.obj.injEq] at h
    subst h
    simp [mergeExpect, lookupKey]
  | cons hd rest ih =>
    intro df rf args hnd h k
    obtain ⟨k1, v1⟩ := hd
    simp only [List.map_cons, List.nodup_cons] at hnd
    obtain ⟨hk1, hndr⟩ := hnd
    cases v1
    case obj uo =>
      simp only [deepUpdate] at h
      cases hsub : deepUpdate (lookupD df k1 (JValue.obj [])) uo args with
      | none => rw [hsub] at h; cases h
      | some sub =>
        rw [hsub] at h
        have hres := ih (setKey df k1 sub) rf args hndr h
        by_cases hk : k = k1
        · subst hk
          have h1 : lookupKey rest k = none := (lookupKey_eq_none_iff rest k).2 hk1
          rw [hres k]
          simp [mergeExpect, h1, lookupKey, lookupKey_setKey_self, hsub]
        · rw [hres k]
          simp only [mergeExpect, lookupKey, if_neg (fun hh : k1 = k => hk hh.symm)]
          cases hrk : lookupKey rest k with
          | none => simp [hrk, lookupKey_setKey_ne df k1 k sub hk]
          | some v2 =>
            cases v2 <;> simp [hrk, lookupD, lookupKey_setKey_ne df k1 k sub hk]
    all_goals
      simp only [deepUpdate] at h
      split at h
      next => exact Option.noConfusion h
      next w hw =>
        have hres := ih (setKey df k1 w) rf args hndr h
        by_cases hk : k = k1
        · subst hk
          have h1 : lookupKey rest k = none := (lookupKey_eq_none_iff rest k).2 hk1
          rw [hres k]
          simp only [mergeExpect, h1, lookupKey, if_pos rfl, lookupKey_setKey_self]
          exact hw.symm
        · rw [hres k]
          simp only [mergeExpect, lookupKey, if_neg (fun hh : k1 = k => hk hh.symm)]
          cases hrk : lookupKey rest k with
          | none => simp [hrk, lookupKey_setKey_ne df k1 k w hk]
          | some v2 =>
            cases v2 <;> simp [hrk, lookupD, lookupKey_setKey_ne df k1 k w hk]

/-! ## Sorting and timestep lemmas -/

theorem insertDesc_perm (x : Nat) (l : List Nat) : (insertDesc x l).Perm (x :: l) := by
  induction l with
  | nil => simp [insertDesc]
  | cons y ys ih =>
    by_cases h : y ≤ x
    · simp [insertDesc, h]
    · simp only [insertDesc, if_neg h]
      exact (ih.cons y).trans (List.Perm.swap x y ys)

theorem sortDesc_perm (l : List Nat) : (sortDesc l).Perm l := by
  induction l with
  | nil => simp [sortDesc]
  | cons x xs ih =>
    have : sortDesc (x :: xs) = insertDesc x (sortDesc xs) := rfl
    rw [this]
    exact (insertDesc_perm x (sortDesc xs)).trans (ih.cons x)

theorem mem_insertDesc (x a : Nat) (l : List Nat) : a ∈ insertDesc x l ↔ a = x ∨ a ∈ l := by
  rw [(insertDesc_perm x l).mem_iff]
  simp

theorem insertDesc_pairwise (x : Nat) (l : List Nat)
    (h : l.Pairwise (fun a b => b ≤ a)) :
    (insertDesc x l).Pairwise (fun a b => b ≤ a) := by
  induction l with
  | nil => simp [insertDesc]
  | cons y ys ih =>
    rcases List.pairwise_cons.1 h with ⟨hy, hys⟩
    by_cases hx : y ≤ x
    · simp only [insertDesc, if_pos hx]
      refine List.Pairwise.cons ?_ h
      intro b hb
      rcases List.mem_cons.1 hb with hb | hb
      · omega
      · have := hy b hb
        omega
    · simp only [insertDesc, if_neg hx]
      refine List.Pairwise.cons ?_ (ih hys)
      intro b hb
      rcases (mem_insertDesc x b ys).1 hb with hb | hb
      · omega
      · exact hy b hb

theorem sortDesc_pairwise (l : List Nat) : (sortDesc l).Pairwise (fun a b => b ≤ a) := by
  induction l with
  | nil => simp [sortDesc]
  | cons x xs ih => exact insertDesc_pairwise x (sortDesc xs) ih

theorem mem_sortDesc (l : List Nat) (a : Nat) : a ∈ sortDesc l ↔ a ∈ l :=
  (sortDesc_perm l).mem_iff

theorem nodup_sortDesc (l : List Nat) (h : l.Nodup) : (sortDesc l).Nodup :=
  ((sortDesc_perm l).nodup_iff).2 h

theorem parseKeys_mem (ks : List String) :
    ∀ (l : List Nat), parseKeys ks = some l →
      ∀ t, t ∈ l ↔ ∃ s ∈ ks, strToNat s = some t := by
  induction ks with
  | nil =>
    intro l h t
    simp only [parseKeys, Option.some.injEq] at h
    subst h
    simp
  | cons s rest ih =>
    intro l h t
    simp only [parseKeys] at h
    cases hs : strToNat s with
    | none => rw [hs] at h; cases h
    | some n =>
      rw [hs] at h
      cases hr : parseKeys rest with
      | none => rw [hr] at h; cases h
      | some l2 =>
        rw [hr] at h
        simp only [Option.some.injEq] at h
        subst h
        simp only [List.mem_cons]
        constructor
        · rintro (rfl | ht)
          · exact ⟨s, by simp, hs⟩
          · obtain ⟨s2, hmem, hval⟩ := (ih l2 hr t).1 ht
            exact ⟨s2, by simp [hmem], hval⟩
        · rintro ⟨s2, hmem, hval⟩
          rcases hmem with rfl | hmem
          · left; rw [hs] at hval; exact (Option.some.injEq _ _ ▸ hval).symm
          · right; exact (ih l2 hr t).2 ⟨s2, hmem, hval⟩

/-- Characterization of `cbValidTimesteps` on success: descending,
duplicate-free, and containing exactly the declared timesteps at most
the cursor. -/
theorem cbValidTimesteps_spec (m : JObj) (c : Nat) (ts : List Nat)
    (h : cbValidTimesteps m c = Except.ok ts) :
    ts.Pairwise (fun a b => b ≤ a) ∧ ts.Nodup ∧
      ∀ t, t ∈ ts ↔ ((∃ kv ∈ m, strToNat kv.1 = some t) ∧ t ≤ c) := by
  simp only [cbValidTimesteps, cbAllTimesteps] at h
  cases hp : parseKeys (m.map Prod.fst) with
  | none => rw [hp] at h; cases h
  | some l =>
    rw [hp] at h
    simp only [Except.ok.injEq] at h
    subst h
    refine ⟨sortDesc_pairwise _, nodup_sortDesc _ (List.Nodup.filter _ (List.nodup_dedup l)), ?_⟩
    intro t
    rw [mem_sortDesc, List.mem_filter]
    have hmem := parseKeys_mem (m.map Prod.fst) l hp t
    simp only [List.mem_dedup, decide_eq_true_eq]
    rw [hmem]
    constructor
    · rintro ⟨⟨s, hsm, hval⟩, hle⟩
      obtain ⟨kv, hkv, rfl⟩ := List.mem_map.1 hsm
      exact ⟨⟨kv, hkv, hval⟩, hle⟩
    · rintro ⟨⟨kv, hkv, hval⟩, hle⟩
      exact ⟨⟨kv.1, List.mem_map.2 ⟨kv, hkv, rfl⟩, hval⟩, hle⟩

theorem cbScan_eq_none (m : JObj) (name : List String) (ts : List Nat) :
    cbScan m name ts = none ↔ ∀ t ∈ ts, cbGetValueAtTimestep m name t = none := by
  induction ts with
  | nil => simp [cbScan]
  | cons t rest ih =>
    simp only [cbScan]
    cases hh : cbGetValueAtTimestep m name t with
    | some v => simp [hh]
    | none => simp [hh, ih]

theorem cbScan_eq_some (m : JObj) (name : List String) (ts : List Nat) (v : JValue)
    (hs : ts.Pairwise (fun a b => b ≤ a)) :
    cbScan m name ts = some v ↔
      ∃ t ∈ ts, cbGetValueAtTimestep m name t = some v ∧
        ∀ t2 ∈ ts, t < t2 → cbGetValueAtTimestep m name t2 = none := by
  induction ts with
  | nil => simp [cbScan]
  | cons t0 rest ih =>
    rcases List.pairwise_cons.1 hs with ⟨hle, hrest⟩
    simp only [cbScan]
    cases hh : cbGetValueAtTimestep m name t0 with
    | some w =>
      simp only [Option.some.injEq]
      constructor
      · rintro rfl
        refine ⟨t0, by simp, hh, ?_⟩
        intro t2 ht2 hlt
        rcases List.mem_cons.1 ht2 with rfl | ht2
        · omega
        · have := hle t2 ht2
          omega
      · rintro ⟨t, htmem, hval, hnone⟩
        rcases List.mem_cons.1 htmem with rfl | htmem
        · rw [hh] at hval; exact (Option.some.injEq _ _ ▸ hval)
        · have h1 := hle t htmem
          by_cases heq : t = t0
          · subst heq; rw [hh] at hval; exact (Option.some.injEq _ _ ▸ hval)
          · have : t < t0 := by omega
            have := hnone t0 (by simp) this
            rw [this] at hh
            cases hh
    | none =>
      rw [ih hrest]
      constructor
      · rintro ⟨t, htmem, hval, hnone⟩
        refine ⟨t, by simp [htmem], hval, ?_⟩
        intro t2 ht2 hlt
        rcases List.mem_cons.1 ht2 with rfl | ht2
        · exact hh
        · exact hnone t2 ht2 hlt
      · rintro ⟨t, htmem, hval, hnone⟩
        rcases List.mem_cons.1 htmem with rfl | htmem
        · rw [hh] at hval; cases hval
        · exact ⟨t, htmem, hval, fun t2 ht2 hlt => hnone t2 (by simp [ht2]) hlt⟩

/-! ## Deep-merging into a fresh dict copies a well-formed tree -/

theorem deepUpdate_from_empty_bound (n : Nat) :
    ∀ (u acc : JObj), sizeOf u < n → wfTree (JValue.obj u) = true →
      (∀ k ∈ u.map Prod.fst, lookupKey acc k = none) →
      deepUpdate (JValue.obj acc) u [] = some (JValue.obj (acc ++ u)) := by
  induction n with
  | zero => intro u acc h; omega
  | succ n ih =>
    intro u acc hsz hwf hdisj
    cases u with
    | nil => simp [deepUpdate]
    | cons hd rest =>
      obtain ⟨k1, v1⟩ := hd
      have hwf2 : (wfTree v1 = true ∧ wfFields rest = true) ∧
          k1 ∉ rest.map Prod.fst ∧ (rest.map Prod.fst).Nodup := by
        simpa [wfTree, wfFields, Bool.and_eq_true, List.nodup_cons] using hwf
      obtain ⟨⟨hwv, hwr⟩, hk1, hndr⟩ := hwf2
      have hwfrest : wfTree (JValue.obj rest) = true := by
        simp [wfTree, hwr, hndr]
      have hacc1 : lookupKey acc k1 = none := hdisj k1 (by simp)
      have hknacc : k1 ∉ acc.map Prod.fst := (lookupKey_eq_none_iff acc k1).1 hacc1
      have hszrest : sizeOf rest < n := by
        simp only [List.cons.sizeOf_spec, Prod.mk.sizeOf_spec] at hsz
        omega
      have hdisj2 : ∀ (x : JValue), ∀ k ∈ rest.map Prod.fst,
          lookupKey (acc ++ [(k1, x)]) k = none := by
        intro x k hkmem
        rw [lookupKey_append]
        have h1 : lookupKey acc k = none := hdisj k (by simp [hkmem])
        have h2 : k ≠ k1 := fun hh => hk1 (hh ▸ hkmem)
        simp [h1, lookupKey, Ne.symm h2]
      have happ : ∀ (x : JValue),
          (acc ++ [(k1, x)]) ++ rest = acc ++ (k1, x) :: rest := by
        intro x
        simp
      cases v1
      case obj uo =>
        have hwfuo : wfTree (JValue.obj uo) = true := hwv
        have hszuo : sizeOf uo < n := by
          simp only [List.cons.sizeOf_spec, Prod.mk.sizeOf_spec, JValue.obj.sizeOf_spec] at hsz
          omega
        have hcopy := ih uo [] hszuo hwfuo (fun k _ => rfl)
        simp only [List.nil_append] at hcopy
        simp only [deepUpdate, lookupD, hacc1, Option.getD_none, hcopy]
        rw [setKey_of_not_mem acc k1 (JValue.obj uo) hknacc]
        rw [ih rest (acc ++ [(k1, JValue.obj uo)]) hszrest hwfrest
            (hdisj2 (JValue.obj uo))]
        rw [happ]
      all_goals
        simp only [deepUpdate, substTemplates_nil]
        rw [setKey_of_not_mem acc k1 _ hknacc]
        rw [ih rest (acc ++ [(k1, _)]) hszrest hwfrest (hdisj2 _)]
        rw [happ]

/-- Building a `ConfigurationBlock` with no base layers deep-copies its
raw config: the merged tree is the raw tree itself. -/
theorem deepUpdate_from_empty (u : JObj) (hwf : wfTree (JValue.obj u) = true) :
    deepUpdate (JValue.obj []) u [] = some (JValue.obj u) := by
  have := deepUpdate_from_empty_bound (sizeOf u + 1) u [] (by omega) hwf (fun k _ => rfl)
  simpa using this

/-! ## Claims -/

/-- C1, counterexample to the claim as stated.  The claim says that
when a key is present in two layers and the values are not both nested
mappings, "the later (more-derived) layer's value replaces the earlier
one entirely".  With earlier value `{x: 5}` and later value
`{x: {y: 1}}` the code instead raises `TypeError` (the recursion
assigns into the scalar `5`), so the merge does not produce the
replacement `{x: {y: 1}}` — it produces no tree at all. -/
theorem C1_counterexample :
    deepUpdate (JValue.obj [("x", JValue.num 5)]) [("x", JValue.obj [("y", JValue.num 1)])] []
      = none ∧
    (none : Option JValue) ≠ some (JValue.obj [("x", JValue.obj [("y", JValue.num 1)])]) := by
  constructor
  · simp [deepUpdate, lookupD, lookupKey]
  · simp

/-- C1 (amended): deep-merge is base-to-derived with child-wins
override, key by key: for every key of the update layer, if the update
value is a nested mapping it is merged recursively into the earlier
value (`{}` when absent — which raises `TypeError` when the earlier
value is a non-mapping and the update mapping is nonempty, and keeps
the earlier value when the update mapping is empty); otherwise the
update value replaces the earlier value entirely (after template
substitution); keys absent from the update layer keep the earlier
value.  In particular, for preset B with base A, where A defines
`{x: 2, a: 25}` and B defines `{x: 8}`, B's merged config yields
`get_int("a") = 25` and `get_int("x") = 8`. -/
theorem C1_deep_merge_rule :
    (∀ (u : JObj), ∀ (df rf : JObj) (args : List String),
        (u.map Prod.fst).Nodup →
        deepUpdate (JValue.obj df) u args = some (JValue.obj rf) →
        ∀ k, lookupKey rf k = mergeExpect df u args k)
    ∧
    ((cfgSetData [] [("x", JValue.num 2), ("a", JValue.num 25)] false).bind (fun sA =>
      (cfgSetData [] [("x", JValue.num 8)] false).bind (fun sB =>
        cfgSetBaseConfigs sB [("0", [⟨sA.merged, cfgTreatDynamic sA, []⟩])]))).map
      (fun s => (cfgGetInt s ["a"] none 0, cfgGetInt s ["x"] none 0))
      = some (Except.ok 25, Except.ok 8) := by
  constructor
  · exact deepUpdate_keywise
  · simp [cfgSetData, cfgBuildConfig, cfgCollectLayers, cbMergeConfig, mergeLayers,
      deepUpdate, substTemplates, lookupKey, setKey, lookupD, cfgSetBaseConfigs,
      layersOfIter, cfgGetInt, cbGetInt, cbGVWF, logStep, cbGetValue, cbValidTimesteps,
      cbAllTimesteps, parseKeys, strToNat, parseDigits, parseDigitsGo, digitVal,
      sortDesc, insertDesc, cbScan, cbGetValueAtTimestep, cbGetFromBlock, toIntC,
      cfgTreatDynamic, Option.bind, show toString (0 : Nat) = "0" from rfl]

/-- Witness for C1: the keywise rule applied to the A/B layer pair at
key "a" — the base's untouched value survives the merge. -/
theorem C1_witness :
    lookupKey [("x", JValue.num 8), ("a", JValue.num 25)] "a"
      = mergeExpect [("x", JValue.num 2), ("a", JValue.num 25)] [("x", JValue.num 8)] [] "a" :=
  C1_deep_merge_rule.1 [("x", JValue.num 8)]
    [("x", JValue.num 2), ("a", JValue.num 25)]
    [("x", JValue.num 8), ("a", JValue.num 25)] []
    (by simp)
    (by simp [deepUpdate, substTemplates, lookupD, lookupKey, setKey]) "a"

/-- C2: timestep shadowing.  For a block whose top-level keys all parse
as timesteps, `valid_timesteps(cursor)` returns exactly the declared
timesteps `≤ cursor`, in descending order without duplicates; value
lookup scans them most-recent-first and returns the first hit; it
raises `NotFound` exactly when no valid timestep's subtree contains
the key.  With `{"0": {z: 24}, "10": {z: 30}}`, `z` resolves to 24 at
cursor 0 and to 30 at cursors 10 and 20. -/
theorem C2_timestep_shadowing :
    (∀ (m : JObj) (c : Nat) (ts : List Nat),
        cbValidTimesteps m c = Except.ok ts →
        ts.Pairwise (fun a b => b ≤ a) ∧ ts.Nodup ∧
          ∀ t, t ∈ ts ↔ ((∃ kv ∈ m, strToNat kv.1 = some t) ∧ t ≤ c))
    ∧
    (∀ (m : JObj) (name : List String) (c : Nat) (ts : List Nat),
        cbValidTimesteps m c = Except.ok ts →
        (cbGetValue m name c = Except.error Err.notFound ↔
          ∀ t ∈ ts, cbGetValueAtTimestep m name t = none))
    ∧
    (∀ (m : JObj) (name : List String) (c : Nat) (ts : List Nat) (v : JValue),
        cbValidTimesteps m c = Except.ok ts →
        (cbGetValue m name c = Except.ok v ↔
          ∃ t ∈ ts, cbGetValueAtTimestep m name t = some v ∧
            ∀ t2 ∈ ts, t < t2 → cbGetValueAtTimestep m name t2 = none))
    ∧
    (cbGetValue [("0", JValue.obj [("z", JValue.num 24)]), ("10", JValue.obj [("z", JValue.num 30)])]
        ["z"] 0 = Except.ok (JValue.num 24)
     ∧ cbGetValue [("0", JValue.obj [("z", JValue.num 24)]), ("10", JValue.obj [("z", JValue.num 30)])]
        ["z"] 10 = Except.ok (JValue.num 30)
     ∧ cbGetValue [("0", JValue.obj [("z", JValue.num 24)]), ("10", JValue.obj [("z", JValue.num 30)])]
        ["z"] 20 = Except.ok (JValue.num 30)) := by
  refine ⟨cbValidTimesteps_spec, ?_, ?_, ?_⟩
  · intro m name c ts h
    simp only [cbGetValue, h]
    rw [← cbScan_eq_none m name ts]
    cases hscan : cbScan m name ts <;> simp [hscan]
  · intro m name c ts v h
    rw [← cbScan_eq_some m name ts v (cbValidTimesteps_spec m c ts h).1]
    simp only [cbGetValue, h]
    cases hscan : cbScan m name ts <;> simp [hscan]
  · refine ⟨?_, ?_, ?_⟩ <;>
      simp [cbGetValue, cbValidTimesteps, cbAllTimesteps, parseKeys, strToNat,
        parseDigits, parseDigitsGo, digitVal, sortDesc, insertDesc, cbScan,
        cbGetValueAtTimestep, cbGetFromBlock, lookupKey,
        show toString (0 : Nat) = "0" from rfl, show toString (10 : Nat) = "10" from rfl]

/-- Witness for C2: the general parts applied to the concrete dynamic
block at cursor 20, whose valid timesteps are `[10, 0]`. -/
theorem C2_witness :
    (([10, 0] : List Nat).Pairwise (fun a b => b ≤ a) ∧ ([10, 0] : List Nat).Nodup ∧
      ∀ t, t ∈ ([10, 0] : List Nat) ↔
        ((∃ kv ∈ ([("0", JValue.obj [("z", JValue.num 24)]),
            ("10", JValue.obj [("z", JValue.num 30)])] : JObj), strToNat kv.1 = some t) ∧
          t ≤ 20)) := by
  refine C2_timestep_shadowing.1
    [("0", JValue.obj [("z", JValue.num 24)]), ("10", JValue.obj [("z", JValue.num 30)])] 20
    [10, 0] ?_
  simp [cbValidTimesteps, cbAllTimesteps, parseKeys, strToNat, parseDigits,
    parseDigitsGo, digitVal, sortDesc, insertDesc]

/-- The returned value of `Preset._get_value_with_fallback`, as a
function of the resolution results only (the logging tail only touches
logging state). -/
theorem pGVWF_fst (v : PresetView) (coe : JValue → Option JValue) (name : List String)
    (fb : Option (List String)) :
    (pGVWF v coe name fb).1 =
      (match pGetValue coe v.core (v.prefixPath ++ name) v.cursor with
       | Except.ok w => Except.ok w
       | Except.error Err.notFound =>
         (match fb with
          | some f => pGetValue coe v.core (v.prefixPath ++ f) v.cursor
          | none => Except.error Err.notFound)
       | Except.error e => Except.error e) := by
  simp only [pGVWF]
  cases h : pGetValue coe v.core (v.prefixPath ++ name) v.cursor with
  | ok w => simp [h]
  | error e =>
    cases e with
    | notFound =>
      cases fb with
      | none => simp [h]
      | some f =>
        simp only [h]
        cases h2 : pGetValue coe v.core (v.prefixPath ++ f) v.cursor <;> simp [h2]
    | typeErr => simp [h]
    | valueErr => simp [h]
    | attrErr => simp [h]

/-- C4: fallback resolution, at the block level and the preset level.
The primary key is resolved first; the fallback key is consulted if
and only if the primary resolution raises `NotFound` and a fallback
was given; with no fallback (or a fallback that is also absent, since
the fallback's own result is returned unchanged) `NotFound`
propagates.  The logging state never affects the returned value. -/
theorem C4_fallback_resolution :
    (∀ (m : JObj) (name : List String) (fb : Option (List String)) (c : Nat) (st : LogSt)
        (v : JValue),
        cbGetValue m name c = Except.ok v → (cbGVWF m name fb c st).1 = Except.ok v)
    ∧
    (∀ (m : JObj) (name f : List String) (c : Nat) (st : LogSt),
        cbGetValue m name c = Except.error Err.notFound →
        (cbGVWF m name (some f) c st).1 = cbGetValue m f c)
    ∧
    (∀ (m : JObj) (name : List String) (c : Nat) (st : LogSt),
        cbGetValue m name c = Except.error Err.notFound →
        (cbGVWF m name none c st).1 = Except.error Err.notFound)
    ∧
    (∀ (m : JObj) (name : List String) (fb : Option (List String)) (c : Nat) (st st2 : LogSt),
        (cbGVWF m name fb c st).1 = (cbGVWF m name fb c st2).1)
    ∧
    (∀ (v : PresetView) (coe : JValue → Option JValue) (name : List String)
        (fb : Option (List String)) (w : JValue),
        pGetValue coe v.core (v.prefixPath ++ name) v.cursor = Except.ok w →
        (pGVWF v coe name fb).1 = Except.ok w)
    ∧
    (∀ (v : PresetView) (coe : JValue → Option JValue) (name f : List String),
        pGetValue coe v.core (v.prefixPath ++ name) v.cursor = Except.error Err.notFound →
        (pGVWF v coe name (some f)).1 = pGetValue coe v.core (v.prefixPath ++ f) v.cursor)
    ∧
    (∀ (v : PresetView) (coe : JValue → Option JValue) (name : List String),
        pGetValue coe v.core (v.prefixPath ++ name) v.cursor = Except.error Err.notFound →
        (pGVWF v coe name none).1 = Except.error Err.notFound) := by
  refine ⟨?_, ?_, ?_, ?_, ?_, ?_, ?_⟩
  · intro m name fb c st v h
    simp [cbGVWF, h]
  · intro m name f c st h
    simp only [cbGVWF, h]
    cases h2 : cbGetValue m f c <;> simp [h2]
  · intro m name c st h
    simp [cbGVWF, h]
  · intro m name fb c st st2
    cases h : cbGetValue m name c with
    | ok v => simp [cbGVWF, h]
    | error e =>
      cases e with
      | notFound =>
        cases fb with
        | none => simp [cbGVWF, h]
        | some f =>
          simp only [cbGVWF, h]
          cases h2 : cbGetValue m f c <;> simp [h2]
      | typeErr => simp [cbGVWF, h]
      | valueErr => simp [cbGVWF, h]
      | attrErr => simp [cbGVWF, h]
  · intro v coe name fb w h
    rw [pGVWF_fst, h]
  · intro v coe name f h
    rw [pGVWF_fst, h]
  · intro v coe name h
    rw [pGVWF_fst, h]

/-- Witness for C4: the fallback of a missing key in a concrete flat
block resolves to the present key's value. -/
theorem C4_witness :
    (cbGVWF [("0", JValue.obj [("present", JValue.num 7)])] ["missing"] (some ["present"]) 0
      ⟨[], false⟩).1 = cbGetValue [("0", JValue.obj [("present", JValue.num 7)])] ["present"] 0 := by
  refine C4_fallback_resolution.2.1 [("0", JValue.obj [("present", JValue.num 7)])]
    ["missing"] ["present"] 0 ⟨[], false⟩ ?_
  simp [cbGetValue, cbValidTimesteps, cbAllTimesteps, parseKeys, strToNat, parseDigits,
    parseDigitsGo, digitVal, sortDesc, insertDesc, cbScan, cbGetValueAtTimestep,
    cbGetFromBlock, lookupKey, show toString (0 : Nat) = "0" from rfl]

/-- C5: prefix scoping.  `get_with_prefix(q)` returns a view sharing
the preset's config chain and cursor whose prefix is the old prefix
extended by `q`, and every typed getter on the view returns exactly
what the path-qualified getter returns on the original (the fallback
key, when given, is qualified the same way). -/
theorem C5_prefix_scoping :
    (∀ (v : PresetView) (q : List String),
        (pGetWithPrefix v q).core = v.core ∧
        (pGetWithPrefix v q).prefixPath = v.prefixPath ++ q ∧
        (pGetWithPrefix v q).cursor = v.cursor)
    ∧
    (∀ (v : PresetView) (q : List String) (coe : JValue → Option JValue)
        (k : List String) (fb : Option (List String)),
        (pGVWF (pGetWithPrefix v q) coe k fb).1
          = (pGVWF v coe (q ++ k) (fb.map (fun f => q ++ f))).1) := by
  constructor
  · intro v q
    exact ⟨rfl, rfl, rfl⟩
  · intro v q coe k fb
    rw [pGVWF_fst, pGVWF_fst]
    simp only [pGetWithPrefix, List.append_assoc]
    cases fb <;> simp [List.append_assoc]

/-- C6: dynamic contagion.  Part 1 (true of the code):
`treat_dynamic()` holds iff the preset's own dynamic flag or some
transitive base's dynamic flag is set.  Part 2 (the claimed
consequence fails): on a flat child of a dynamic base, every `Preset`
lookup evaluates `Preset.all_timesteps`, which reads the nonexistent
`ConfigurationBlock.configBlocks` attribute and raises
`AttributeError` instead of resolving the base's schedule; and the
`Configuration` pipeline keeps only the base's timestep-0 subtree
(`get_merged_config(True)["0"]`), so `z` resolves to 24 at cursor 10
where the base's schedule (and the repo's own test) says 30. -/
theorem C6_dynamic_contagion :
    (∀ p : PresetT, pTreatDynamic p = true ↔ ∃ q ∈ pChainList p, pDynamic q = true)
    ∧
    (∀ (coe : JValue → Option JValue) (cursor : Nat),
        pGetValue coe
          (PresetT.derived [] false
            (PresetT.leaf [("0", JValue.obj [("z", JValue.num 24)]),
              ("10", JValue.obj [("z", JValue.num 30)])] true))
          ["z"] cursor = Except.error Err.attrErr)
    ∧
    ((cfgSetData [] [] false).bind (fun sC =>
      cfgSetBaseConfigs sC [("0", [⟨[("0", JValue.obj [("z", JValue.num 24)]),
        ("10", JValue.obj [("z", JValue.num 30)])], true, []⟩])])).map
      (fun s => cfgGetInt s ["z"] none 10) = some (Except.ok 24) := by
  refine ⟨?_, ?_, ?_⟩
  · intro p
    induction p with
    | leaf c dyn => simp [pTreatDynamic, pChainList, pDynamic]
    | derived c dyn b ih =>
      simp [pTreatDynamic, pChainList, pDynamic, Bool.or_eq_true, ih]
  · intro coe cursor
    rfl
  · simp [cfgSetData, cfgBuildConfig, cfgCollectLayers, cbMergeConfig, mergeLayers,
      deepUpdate, substTemplates, lookupKey, setKey, lookupD, cfgSetBaseConfigs,
      layersOfIter, cfgGetInt, cbGetInt, cbGVWF, logStep, cbGetValue, cbValidTimesteps,
      cbAllTimesteps, parseKeys, strToNat, parseDigits, parseDigitsGo, digitVal,
      sortDesc, insertDesc, cbScan, cbGetValueAtTimestep, cbGetFromBlock, toIntC,
      cfgTreatDynamic, Option.bind, show toString (0 : Nat) = "0" from rfl,
      show toString (10 : Nat) = "10" from rfl]

/-- C7, counterexample to the claim as stated.  Promoting a
non-dynamic preset (`{a: 1}`) with `set_config_at_timestep({b: 2}, 0)`
replaces the wrapped flat config at key "0" outright: the result is
`{"0": {b: 2}}`, not the claimed deep-merge `{"0": {a: 1, b: 2}}`. -/
theorem C7_counterexample :
    setConfigAtTimestep ⟨[("a", JValue.num 1)], false⟩ [("b", JValue.num 2)] 0
      = some ⟨[("0", JValue.obj [("b", JValue.num 2)])], true⟩ ∧
    ([("0", JValue.obj [("b", JValue.num 2)])] : JObj)
      ≠ [("0", JValue.obj [("a", JValue.num 1), ("b", JValue.num 2)])] := by
  constructor
  · simp [setConfigAtTimestep, setKey, lookupKey, show toString (0 : Nat) = "0" from rfl]
  · simp

/-- C7 (amended): `set_config_at_timestep(c, t)` always leaves the raw
document dynamic.  When the preset was already dynamic and a subtree
exists at timestep `t`, `c` is deep-merged into that subtree (child
wins).  Otherwise — in particular when a non-dynamic preset is
promoted, its flat config being wrapped under `"0"` — the subtree at
`t` is replaced by `c` outright (so promotion at `t = 0` discards the
previous flat config).  The `ConfigurationBlock` is rebuilt from the
updated raw document, whose merged tree is exactly the updated raw
config, so subsequent getters read the new values. -/
theorem C7_set_config_at_timestep :
    (∀ (p : PData) (c : JObj) (t : Nat) (r : PData),
        setConfigAtTimestep p c t = some r → r.dataDynamic = true)
    ∧
    (∀ (p : PData) (c : JObj) (t : Nat) (S merged : JValue),
        p.dataDynamic = true → lookupKey p.dataConfig (toString t) = some S →
        deepUpdateP S c = some merged →
        setConfigAtTimestep p c t = some ⟨setKey p.dataConfig (toString t) merged, true⟩)
    ∧
    (∀ (p : PData) (c : JObj) (t : Nat),
        p.dataDynamic = true → lookupKey p.dataConfig (toString t) = none →
        setConfigAtTimestep p c t
          = some ⟨setKey p.dataConfig (toString t) (JValue.obj c), true⟩)
    ∧
    (∀ (p : PData) (c : JObj) (t : Nat),
        p.dataDynamic = false →
        setConfigAtTimestep p c t
          = some ⟨setKey [("0", JValue.obj p.dataConfig)] (toString t) (JValue.obj c), true⟩)
    ∧
    (∀ (p : PData) (c : JObj) (t : Nat) (r : PData),
        setConfigAtTimestep p c t = some r → wfTree (JValue.obj r.dataConfig) = true →
        deepUpdate (JValue.obj []) r.dataConfig [] = some (JValue.obj r.dataConfig)) := by
  refine ⟨?_, ?_, ?_, ?_, ?_⟩
  · intro p c t r h
    simp only [setConfigAtTimestep] at h
    split at h
    · split at h
      · split at h
        · exact Option.noConfusion h
        · next => cases h; rfl
      · cases h; rfl
    · cases h; rfl
  · intro p c t S merged hdyn hlook hmerge
    simp [setConfigAtTimestep, hdyn, hlook, hmerge]
  · intro p c t hdyn hlook
    simp [setConfigAtTimestep, hdyn, hlook]
  · intro p c t hdyn
    simp [setConfigAtTimestep, hdyn]
  · intro p c t r _ hwf
    exact deepUpdate_from_empty r.dataConfig hwf

/-- Witness for C7: promoting a concrete flat preset at timestep 5
wraps the old config under "0", sets the new subtree at "5", and marks
the document dynamic. -/
theorem C7_witness :
    setConfigAtTimestep ⟨[("a", JValue.num 1)], false⟩ [("b", JValue.num 2)] 5
      = some ⟨setKey [("0", JValue.obj [("a", JValue.num 1)])] (toString 5)
          (JValue.obj [("b", JValue.num 2)]), true⟩ :=
  C7_set_config_at_timestep.2.2.2.1 ⟨[("a", JValue.num 1)], false⟩ [("b", JValue.num 2)] 5 rfl

/-- C8: template substitution.  For a single-argument list the claimed
rule holds exactly: a string leaf equal to the token `$T0$` is
replaced wholesale by the argument parsed as JSON (falling back to the
raw string when it is not valid JSON), and otherwise the token is
replaced inside the string.  But the claim also asserts the rule for
argument lists of two or more whose first substitution yields a
non-string JSON value — there the loop's next iteration calls
`.replace` on the non-string and raises `AttributeError`: with leaf
`"$T0$"` and arguments `["5", "x"]` the merge crashes instead of
keeping `5`. -/
theorem C8_template_substitution :
    (∀ (df : JObj) (k s a : String),
        deepUpdate (JValue.obj df) [(k, JValue.str s)] [a]
          = some (JValue.obj (setKey df k
              (match jsonLoads a with
               | some jv =>
                 if s = templateTok 0 then jv
                 else JValue.str (s.replace (templateTok 0) a)
               | none => JValue.str (s.replace (templateTok 0) a)))))
    ∧
    deepUpdate (JValue.obj []) [("k", JValue.str "$T0$")] ["5", "x"] = none := by
  constructor
  · intro df k s a
    simp only [deepUpdate, substTemplates, substLoop]
  · simp [deepUpdate, substTemplates, substLoop, jsonLoads, strToInt, parseDigits,
      parseDigitsGo, digitVal, show templateTok 0 = "$T0$" from rfl]

/-- C9, counterexample to the claim as stated.  A freshly loaded
base-less preset declaring `dynamic: true` with the single timestep
subtree `{"0": {z: 24}}`: `compose_config()` returns the
timestep-keyed tree unchanged, while `get_merged_config()` re-derives
`dynamic` as `len(merged) > 1 = False` and unwraps the `"0"` subtree —
the two trees differ. -/
theorem C9_counterexample :
    composeConfig (PresetT.leaf [("0", JValue.obj [("z", JValue.num 24)])] true) false
      = some (JValue.obj [("0", JValue.obj [("z", JValue.num 24)])]) ∧
    (cfgSetData [] [("0", JValue.obj [("z", JValue.num 24)])] true).bind
      (fun s => cfgGetMergedConfig s false)
      = some (JValue.obj [("z", JValue.num 24)]) ∧
    some (JValue.obj [("0", JValue.obj [("z", JValue.num 24)])])
      ≠ some (JValue.obj [("z", JValue.num 24)]) := by
  refine ⟨?_, ?_, ?_⟩
  · simp [composeConfig, pTreatDynamic]
  · simp [cfgSetData, cfgBuildConfig, cfgCollectLayers, cbMergeConfig, mergeLayers,
      deepUpdate, substTemplates, lookupKey, setKey, lookupD, cfgGetMergedConfig,
      cfgTreatDynamic, Option.bind]
  · simp

/-- C9 (amended): for a freshly loaded base-less preset whose declared
dynamic flag is consistent with the derived one (not dynamic, or
dynamic with more than one top-level timestep), `compose_config()`
equals `get_merged_config()`, and re-merging the composed tree through
the same deep-merge rule (into a fresh dict) changes nothing, so the
round trip is exact.  When `dynamic: true` is declared over a
single-timestep config the two sides differ (see the
counterexample). -/
theorem C9_round_trip (own : JObj) (dyn : Bool)
    (hwf : wfTree (JValue.obj own) = true)
    (hcons : dyn = true → own.length > 1) :
    composeConfig (PresetT.leaf own dyn) false
        = (cfgSetData [] own dyn).bind (fun s => cfgGetMergedConfig s false)
    ∧ (composeConfig (PresetT.leaf own dyn) false).bind
        (fun t => match t with
                  | JValue.obj tf => deepUpdate (JValue.obj []) tf []
                  | _ => none)
        = (cfgSetData [] own dyn).bind (fun s => cfgGetMergedConfig s false) := by
  have hcopy : deepUpdate (JValue.obj []) own [] = some (JValue.obj own) :=
    deepUpdate_from_empty own hwf
  have hcompose : composeConfig (PresetT.leaf own dyn) false = some (JValue.obj own) := by
    cases dyn <;> simp [composeConfig, pTreatDynamic]
  cases dyn with
  | true =>
    have hlen : own.length > 1 := hcons rfl
    constructor
    · simp [cfgSetData, cfgBuildConfig, cfgCollectLayers, cbMergeConfig, mergeLayers,
        hcopy, cfgGetMergedConfig, cfgTreatDynamic, hcompose, hlen, Option.bind]
    · simp [cfgSetData, cfgBuildConfig, cfgCollectLayers, cbMergeConfig, mergeLayers,
        hcopy, cfgGetMergedConfig, cfgTreatDynamic, hcompose, hlen, Option.bind]
  | false =>
    have hwrap : deepUpdate (JValue.obj []) [("0", JValue.obj own)] []
        = some (JValue.obj [("0", JValue.obj own)]) := by
      simp only [deepUpdate, lookupD, lookupKey, Option.getD_none, hcopy, setKey]
    constructor
    · simp [cfgSetData, cfgBuildConfig, cfgCollectLayers, cbMergeConfig, mergeLayers,
        hwrap, cfgGetMergedConfig, cfgTreatDynamic, lookupKey, hcompose, Option.bind]
    · simp [cfgSetData, cfgBuildConfig, cfgCollectLayers, cbMergeConfig, mergeLayers,
        hwrap, cfgGetMergedConfig, cfgTreatDynamic, lookupKey, hcompose, hcopy, Option.bind]

/-- Witness for C9: a flat base-less preset round-trips exactly. -/
theorem C9_witness :
    composeConfig (PresetT.leaf [("q", JValue.num 3)] false) false
      = (cfgSetData [] [("q", JValue.num 3)] false).bind (fun s => cfgGetMergedConfig s false) :=
  (C9_round_trip [("q", JValue.num 3)] false (by simp [wfTree, wfFields])
    (by intro h; cases h)).1

/-- C10: after every `set_data` or `set_base_configs`, the
configuration's `dynamic` attribute equals whether the merged config
has more than one top-level key — overriding the raw document's
declared `dynamic` field; in particular a document declaring
`dynamic: true` whose config holds a single timestep subtree is
treated as non-dynamic from then on. -/
theorem C10_dynamic_override :
    (∀ (bases : List (String × List BaseSpec)) (own : JObj) (dyn : Bool) (s : CfgState),
        cfgSetData bases own dyn = some s → (s.dynamic = true ↔ s.merged.length > 1))
    ∧
    (∀ (st : CfgState) (nb : List (String × List BaseSpec)) (s : CfgState),
        cfgSetBaseConfigs st nb = some s → (s.dynamic = true ↔ s.merged.length > 1))
    ∧
    ((cfgSetData [] [("5", JValue.obj [("a", JValue.num 1)])] true).map
      (fun s => s.dynamic) = some false) := by
  refine ⟨?_, ?_, ?_⟩
  · intro bases own dyn s h
    simp only [cfgSetData] at h
    cases hb : cfgBuildConfig dyn bases own with
    | none => rw [hb] at h; cases h
    | some m =>
      rw [hb] at h
      simp only [Option.some.injEq] at h
      subst h
      simp
  · intro st nb s h
    simp only [cfgSetBaseConfigs] at h
    cases hb : cfgBuildConfig st.dynamic nb st.dataConfig with
    | none => rw [hb] at h; cases h
    | some m =>
      rw [hb] at h
      simp only [Option.some.injEq] at h
      subst h
      simp
  · simp [cfgSetData, cfgBuildConfig, cfgCollectLayers, cbMergeConfig, mergeLayers,
      deepUpdate, substTemplates, lookupKey, setKey, lookupD, Option.bind]

/-- Witness for C10: the override applied to the single-timestep
dynamic document — its derived `dynamic` is false. -/
theorem C10_witness :
    ((⟨[("5", JValue.obj [("a", JValue.num 1)])], true, [],
        [("5", JValue.obj [("a", JValue.num 1)])], false⟩ : CfgState).dynamic = true
      ↔ ([("5", JValue.obj [("a", JValue.num 1)])] : JObj).length > 1) := by
  refine C10_dynamic_override.1 [] [("5", JValue.obj [("a", JValue.num 1)])] true _ ?_
  simp [cfgSetData, cfgBuildConfig, cfgCollectLayers, cbMergeConfig, mergeLayers,
    deepUpdate, substTemplates, lookupKey, setKey, lookupD]

/-! ## Cycle detection in the loader -/

/-- Helper for the loader invariant: if every successful `loadConfig`
at this fuel preserves the memo invariant and only resolves
cycle-free identifiers, then so does the base-resolution loop, and
every base identifier it resolves is cycle-free. -/
theorem loadBases_inv (docs : List Doc) (fuel : Nat)
    (hLC : ∀ (memo : Memo) (ch : List String) (u : String) (memo2 : Memo),
        memoInv docs memo → loadConfig docs fuel memo ch u = Except.ok memo2 →
        memoInv docs memo2 ∧ ¬ selfReach docs u) :
    ∀ (l : List (String × List String)) (memo : Memo) (ch : List String) (memo2 : Memo)
      (specs : List (CfgState × List String)),
      memoInv docs memo → loadBases docs fuel memo ch l = Except.ok (memo2, specs) →
      memoInv docs memo2 ∧ ∀ bid ∈ l.map Prod.fst, ¬ selfReach docs bid := by
  intro l
  induction l with
  | nil =>
    intro memo ch memo2 specs hinv h
    simp only [loadBases] at h
    obtain ⟨h1, _⟩ := Prod.mk.injEq .. ▸ (Except.ok.injEq _ _ ▸ h)
    exact ⟨h1 ▸ hinv, by simp⟩
  | cons hd rest ih =>
    intro memo ch memo2 specs hinv h
    obtain ⟨bid, args⟩ := hd
    simp only [loadBases] at h
    cases hload : loadConfig docs fuel memo ch bid with
    | error e => simp only [hload] at h; exact Except.noConfusion h
    | ok memoA =>
      simp only [hload] at h
      have hA := hLC memo ch bid memoA hinv hload
      cases hmA : memoLookup memoA bid with
      | none => simp only [hmA] at h; exact Except.noConfusion h
      | some st =>
        simp only [hmA] at h
        cases hrest : loadBases docs fuel memoA ch rest with
        | error e => simp only [hrest] at h; exact Except.noConfusion h
        | ok p =>
          obtain ⟨memoB, specsB⟩ := p
          simp only [hrest] at h
          have hB := ih memoA ch memoB specsB hA.1 hrest
          simp only [Except.ok.injEq, Prod.mk.injEq] at h
          refine ⟨h.1 ▸ hB.1, ?_⟩
          intro b hb
          simp only [List.map_cons, List.mem_cons] at hb
          rcases hb with rfl | hb
          · exact hA.2
          · exact hB.2 b hb

/-- The loader never successfully resolves an identifier that lies on
an inheritance cycle, and it only ever memoizes cycle-free
identifiers. -/
theorem loadConfig_inv (docs : List Doc) :
    ∀ (fuel : Nat) (memo : Memo) (ch : List String) (u : String) (memo2 : Memo),
      memoInv docs memo → loadConfig docs fuel memo ch u = Except.ok memo2 →
      memoInv docs memo2 ∧ ¬ selfReach docs u := by
  intro fuel
  induction fuel with
  | zero =>
    intro memo ch u memo2 hinv h
    simp [loadConfig] at h
  | succ fuel ih =>
    intro memo ch u memo2 hinv h
    simp only [loadConfig] at h
    cases hd : findDoc docs u with
    | none => simp only [hd] at h; exact Except.noConfusion h
    | some d =>
      simp only [hd] at h
      by_cases hch : u ∈ ch
      · simp only [if_pos hch] at h; exact Except.noConfusion h
      · simp only [if_neg hch] at h
        cases hm : memoLookup memo u with
        | some st =>
          simp only [hm, Except.ok.injEq] at h
          exact ⟨h ▸ hinv, hinv u st hm⟩
        | none =>
          simp only [hm] at h
          cases hb : loadBases docs fuel memo (ch ++ [u]) d.bases with
          | error e => simp only [hb] at h; exact Except.noConfusion h
          | ok p =>
            obtain ⟨memo3, specs⟩ := p
            simp only [hb] at h
            have hB := loadBases_inv docs fuel ih d.bases memo (ch ++ [u]) memo3 specs hinv hb
            cases hc : cfgInitFromManager specs d.config d.dynamic with
            | none => simp only [hc] at h; exact Except.noConfusion h
            | some st =>
              simp only [hc] at h
              simp only [Except.ok.injEq] at h
              have hnsr : ¬ selfReach docs u := by
                intro hsr
                rcases Relation.TransGen.head'_iff.1 hsr with ⟨c, hedge, hcu⟩
                have hcmem : c ∈ d.bases.map Prod.fst := by
                  obtain ⟨d2, hd2, hcm⟩ := hedge
                  rw [hd] at hd2
                  cases hd2
                  exact hcm
                have hcself : selfReach docs c := Relation.TransGen.tail' hcu hedge
                exact hB.2 c hcmem hcself
              refine ⟨?_, hnsr⟩
              subst h
              intro w stw hw
              simp only [memoLookup] at hw
              by_cases hwu : u = w
              · exact hwu ▸ hnsr
              · rw [if_neg hwu] at hw
                exact hB.1 w stw hw

/-- The two-document cycle: A declares base B, B declares base A. -/
def docsCyc : List Doc :=
  [⟨"A", [("B", [])], [("x", JValue.num 8)], false⟩,
   ⟨"B", [("A", [])], [("x", JValue.num 2)], false⟩]

/-- An acyclic two-document set: A declares base B, B has no base. -/
def docsAcy : List Doc :=
  [⟨"A", [("B", [])], [("x", JValue.num 8)], false⟩,
   ⟨"B", [], [("x", JValue.num 2), ("a", JValue.num 25)], false⟩]

/-- C3: cycle detection at load.  Cycle side (true of the code): an
identifier on a base cycle never resolves successfully, and in the
claimed two-preset cycle loading either preset fails with the
cyclic-inheritance error, as does the full load.  Acyclic side (the
claim fails): on the acyclic set `{A base B, B}` the load does not
construct every preset — `Configuration._build_config` indexes the
base list with a list element and the load aborts with `TypeError`
(`buildCrash`), not success. -/
theorem C3_cycle_detection :
    (∀ (docs : List Doc) (fuel : Nat) (memo : Memo) (ch : List String) (u : String)
        (memo2 : Memo),
        memoInv docs memo → selfReach docs u →
        loadConfig docs fuel memo ch u ≠ Except.ok memo2)
    ∧
    (loadConfig docsCyc 3 [] [] "A" = Except.error LoadErr.cyclic
     ∧ loadConfig docsCyc 3 [] [] "B" = Except.error LoadErr.cyclic
     ∧ loadAll docsCyc = Except.error LoadErr.cyclic)
    ∧
    loadAll docsAcy = Except.error LoadErr.buildCrash := by
  refine ⟨?_, ⟨?_, ?_, ?_⟩, ?_⟩
  · intro docs fuel memo ch u memo2 hinv hsr h
    exact (loadConfig_inv docs fuel memo ch u memo2 hinv h).2 hsr
  · simp [docsCyc, loadConfig, loadBases, findDoc, memoLookup]
  · simp [docsCyc, loadConfig, loadBases, findDoc, memoLookup]
  · simp [loadAll, docsCyc, loadConfig, loadBases, findDoc, memoLookup, List.foldlM,
      Except.instMonad, Except.bind]
  · simp [loadAll, docsAcy, loadConfig, loadBases, findDoc, memoLookup, List.foldlM,
      cfgInitFromManager, cfgSetData, cfgBuildConfig, cfgCollectLayers, cbMergeConfig,
      mergeLayers, deepUpdate, substTemplates, lookupKey, setKey, lookupD,
      Except.instMonad, Except.bind]

/-- Witness for C3: the general cycle-side statement applied to the
concrete two-document cycle — loading A cannot succeed. -/
theorem C3_witness : loadConfig docsCyc 3 [] [] "A" ≠ Except.ok [] := by
  have e1 : edgeD docsCyc "A" "B" :=
    ⟨⟨"A", [("B", [])], [("x", JValue.num 8)], false⟩, by simp [docsCyc, findDoc], by simp⟩
  have e2 : edgeD docsCyc "B" "A" :=
    ⟨⟨"B", [("A", [])], [("x", JValue.num 2)], false⟩, by simp [docsCyc, findDoc], by simp⟩
  have hsr : selfReach docsCyc "A" := Relation.TransGen.head e1 (Relation.TransGen.single e2)
  have hinv : memoInv docsCyc [] := by
    intro w st hmem
    simp [memoLookup] at hmem
  exact C3_cycle_detection.1 docsCyc 3 [] [] "A" [] hinv hsr

end Taskconf
